import Mathlib

/-!
Shallow embedding of the cgen runtime support layer
(`src/cgen/runtime/cgen_error_handling.c`, `cgen_stc_bridge.c`,
`cgen_python_ops.c`, `cgen_memory_ops.c`) and proofs about it.

Modelling conventions:
* C `int` values are embedded as `Int`; theorems carry explicit range
  hypotheses (`-2^31 ≤ i`, `i < 2^31`, …) wherever the C arithmetic must
  stay inside `int`.
* C `size_t` values are embedded as `Nat`; where a signed value is stored
  into a `size_t` field the two's-complement cast is made explicit
  (`usize`), and `(int)size_t` casts are made explicit (`intOfSize`).
* The process-wide error context (`cgen_last_error`) is threaded through
  each operation as an explicit state value, preserving the
  last-write-wins semantics of the C global.
* `char` buffers holding messages are embedded as `List Char`; the
  512-byte message buffer truncates at 511 characters exactly as
  `strncpy`/`vsnprintf` do.  The `__FILE__`/`__LINE__`/`__func__`
  arguments of the `CGEN_SET_ERROR*` macros are kept as parameters of
  `cgen_set_error` but abstracted at call sites (no property depends on
  them).
* Heap behaviour (`malloc` succeeding, pointers) is modelled with the
  successful allocation path; fallible lookups return `Option`.
-/

/-- The `cgen_error_t` enum from `cgen_error_handling.h`.
`CGEN_ERROR_IO` is rendered here as `CGEN_ERROR_IOERROR` (the header's
comment name for it is `IOError`). -/
inductive cgen_error : Type
  | CGEN_OK
  | CGEN_ERROR_GENERIC
  | CGEN_ERROR_MEMORY
  | CGEN_ERROR_INDEX
  | CGEN_ERROR_KEY
  | CGEN_ERROR_VALUE
  | CGEN_ERROR_TYPE
  | CGEN_ERROR_IOERROR
  | CGEN_ERROR_FILE_NOT_FOUND
  | CGEN_ERROR_PERMISSION
  | CGEN_ERROR_RUNTIME
  deriving DecidableEq

/-- The `cgen_error_context_t` record behind the global `cgen_last_error`:
code, bounded message buffer (512 bytes, so at most 511 stored characters),
and source location. -/
structure cgen_error_context_t : Type where
  code : cgen_error
  message : List Char
  file : Option String
  line : Int
  function : Option String
  deriving DecidableEq

/-- The initial value of the global context: `{CGEN_OK, "", NULL, 0, NULL}`. -/
def cgen_last_error_init : cgen_error_context_t :=
  { code := cgen_error.CGEN_OK, message := [], file := none, line := 0, function := none }

/-- `cgen_set_error`: unconditionally overwrite every field of the context;
`strncpy(…, message, sizeof-1)` keeps at most 511 characters, a NULL
message stores the empty string. -/
def cgen_set_error (ctx : cgen_error_context_t) (code : cgen_error)
    (message : Option (List Char)) (file : Option String) (line : Int)
    (function : Option String) : cgen_error_context_t :=
  let _ := ctx
  { code := code, message := (message.getD []).take 511,
    file := file, line := line, function := function }

/-- `cgen_set_error_fmt`: same overwrite, with the `vsnprintf`-formatted
text passed in already rendered (truncated to the 512-byte buffer). -/
def cgen_set_error_fmt (ctx : cgen_error_context_t) (code : cgen_error)
    (file : Option String) (line : Int) (function : Option String)
    (formatted : List Char) : cgen_error_context_t :=
  let _ := ctx
  { code := code, message := formatted.take 511,
    file := file, line := line, function := function }

/-- `cgen_get_last_error`. -/
def cgen_get_last_error (ctx : cgen_error_context_t) : cgen_error := ctx.code

/-- `cgen_get_last_error_message`. -/
def cgen_get_last_error_message (ctx : cgen_error_context_t) : List Char := ctx.message

/-- `cgen_clear_error`: reset every field. -/
def cgen_clear_error (ctx : cgen_error_context_t) : cgen_error_context_t :=
  let _ := ctx
  { code := cgen_error.CGEN_OK, message := [], file := none, line := 0, function := none }

/-- `cgen_has_error`: `cgen_last_error.code != CGEN_OK`. -/
def cgen_has_error (ctx : cgen_error_context_t) : Bool :=
  if ctx.code = cgen_error.CGEN_OK then false else true

/-! Platform errno constants (Linux values, as on the build platform). -/

def EPERM : Int := 1
def ENOENT : Int := 2
def EIO_val : Int := 5
def ENOMEM : Int := 12
def EACCES : Int := 13
def EINVAL : Int := 22

/-- `cgen_errno_to_error`: the switch from `cgen_error_handling.c`
(`EIO_val` stands for the C constant `EIO`, whose name is taken in Lean). -/
def cgen_errno_to_error (errno_val : Int) : cgen_error :=
  if errno_val = ENOMEM then cgen_error.CGEN_ERROR_MEMORY
  else if errno_val = ENOENT then cgen_error.CGEN_ERROR_FILE_NOT_FOUND
  else if errno_val = EACCES then cgen_error.CGEN_ERROR_PERMISSION
  else if errno_val = EPERM then cgen_error.CGEN_ERROR_PERMISSION
  else if errno_val = EIO_val then cgen_error.CGEN_ERROR_IOERROR
  else if errno_val = EINVAL then cgen_error.CGEN_ERROR_VALUE
  else cgen_error.CGEN_ERROR_RUNTIME

/-- The C cast `(int)n` for a `size_t` value `n`: reduce mod `2^32` and
reinterpret in two's complement (`int` is 32-bit on the build platform). -/
def intOfSize (n : Nat) : Int :=
  if (n % 2 ^ 32) < 2 ^ 31 then ((n % 2 ^ 32 : Nat) : Int)
  else ((n % 2 ^ 32 : Nat) : Int) - 2 ^ 32

/-- The C cast `(size_t)i` for an `int` value `i`: two's complement
reinterpretation mod `2^64` (`size_t` is 64-bit on the build platform). -/
def usize (i : Int) : Nat := (i % (2 ^ 64 : Int)).toNat

/-- The range check and error report of `cgen_normalize_index` (its second
`if` statement), acting on the already-shifted index. -/
def cgen_normalize_index_check (index1 : Int) (size : Nat)
    (ctx : cgen_error_context_t) : Int × cgen_error_context_t :=
  if index1 < 0 ∨ intOfSize size ≤ index1 then
    (-1,
     cgen_set_error_fmt ctx cgen_error.CGEN_ERROR_INDEX none 0 none
       (("Index " ++ toString index1 ++ " out of range [0, " ++
         toString size ++ ")").data))
  else
    (index1, ctx)

/-- `cgen_normalize_index` from `cgen_stc_bridge.c`: add `(int)size` to a
negative index, then fail with `CGEN_ERROR_INDEX` (returning the sentinel
`-1`) if the result is outside `[0, (int)size)`. -/
def cgen_normalize_index (index : Int) (size : Nat)
    (ctx : cgen_error_context_t) : Int × cgen_error_context_t :=
  cgen_normalize_index_check
    (if index < 0 then index + intOfSize size else index) size ctx

/-! ## Claim theorems (error context, errno, index normalization) -/

/-- C9: `cgen_set_error` stores exactly the given code regardless of the
prior context (last-write-wins, no stacking); `cgen_has_error` is true
exactly when the stored code is not `CGEN_OK`; `cgen_clear_error` resets
the code to `CGEN_OK` and empties the message, after which
`cgen_has_error` is false. -/
theorem C9_error_context_last_write_wins :
    ∀ (ctx : cgen_error_context_t) (code : cgen_error)
      (msg : Option (List Char)) (file : Option String) (line : Int)
      (func : Option String),
      (cgen_set_error ctx code msg file line func).code = code ∧
      (cgen_has_error ctx = true ↔ ctx.code ≠ cgen_error.CGEN_OK) ∧
      (cgen_clear_error ctx).code = cgen_error.CGEN_OK ∧
      (cgen_clear_error ctx).message = [] ∧
      cgen_has_error (cgen_clear_error ctx) = false := by
  intro ctx code msg file line func
  refine ⟨rfl, ?_, rfl, rfl, rfl⟩
  unfold cgen_has_error
  by_cases h : ctx.code = cgen_error.CGEN_OK
  · simp [h]
  · simp [h]

/-- C8: `cgen_errno_to_error` maps ENOMEM to Memory, ENOENT to
FileNotFound, EACCES and EPERM to Permission, EIO to IOError, EINVAL to
Value, and every other errno value to Runtime. -/
theorem C8_errno_mapping :
    cgen_errno_to_error ENOMEM = cgen_error.CGEN_ERROR_MEMORY ∧
    cgen_errno_to_error ENOENT = cgen_error.CGEN_ERROR_FILE_NOT_FOUND ∧
    cgen_errno_to_error EACCES = cgen_error.CGEN_ERROR_PERMISSION ∧
    cgen_errno_to_error EPERM = cgen_error.CGEN_ERROR_PERMISSION ∧
    cgen_errno_to_error EIO_val = cgen_error.CGEN_ERROR_IOERROR ∧
    cgen_errno_to_error EINVAL = cgen_error.CGEN_ERROR_VALUE ∧
    (∀ e : Int, e ≠ ENOMEM → e ≠ ENOENT → e ≠ EACCES → e ≠ EPERM →
      e ≠ EIO_val → e ≠ EINVAL →
      cgen_errno_to_error e = cgen_error.CGEN_ERROR_RUNTIME) := by
  refine ⟨by decide, by decide, by decide, by decide, by decide, by decide, ?_⟩
  intro e h1 h2 h3 h4 h5 h6
  unfold cgen_errno_to_error
  simp [h1, h2, h3, h4, h5, h6]

/-- Witness for C8: the default branch at the concrete errno value 99. -/
theorem C8_errno_mapping_witness :
    cgen_errno_to_error 99 = cgen_error.CGEN_ERROR_RUNTIME :=
  C8_errno_mapping.2.2.2.2.2.2 99 (by decide) (by decide) (by decide)
    (by decide) (by decide) (by decide)

/-- `intOfSize` is the identity below `2^31`. -/
theorem intOfSize_eq_of_lt {L : Nat} (h : L < 2 ^ 31) : intOfSize L = (L : Int) := by
  unfold intOfSize
  have h32 : L % 2 ^ 32 = L := Nat.mod_eq_of_lt (by omega)
  rw [h32]
  simp only [if_pos h]

/-- Helper: on an in-range index, `cgen_normalize_index` resolves the index
and leaves the context untouched. -/
theorem normalize_index_in_range (i : Int) (L : Nat) (ctx : cgen_error_context_t)
    (hiLo : -(2 ^ 31) ≤ i) (hiHi : i < 2 ^ 31) (hL : L ≤ 2 ^ 31 - 1)
    (hlo : -(L : Int) ≤ i) (hhi : i ≤ (L : Int) - 1) :
    cgen_normalize_index i L ctx = (if 0 ≤ i then i else i + L, ctx) := by
  have hcast : intOfSize L = (L : Int) := intOfSize_eq_of_lt (by omega)
  by_cases hi : i < 0
  · simp only [cgen_normalize_index, if_pos hi, cgen_normalize_index_check, hcast]
    rw [if_neg (by omega), if_neg (by omega)]
  · simp only [cgen_normalize_index, if_neg hi, cgen_normalize_index_check, hcast]
    rw [if_neg (by omega), if_pos (by omega)]

/-- Helper: on an out-of-range index, `cgen_normalize_index` returns the
sentinel `-1` and records an Index error. -/
theorem normalize_index_out_range (i : Int) (L : Nat) (ctx : cgen_error_context_t)
    (hiLo : -(2 ^ 31) ≤ i) (hiHi : i < 2 ^ 31) (hL : L ≤ 2 ^ 31 - 1)
    (hout : i < -(L : Int) ∨ (L : Int) ≤ i) :
    (cgen_normalize_index i L ctx).1 = -1 ∧
    (cgen_normalize_index i L ctx).2.code = cgen_error.CGEN_ERROR_INDEX := by
  have hcast : intOfSize L = (L : Int) := intOfSize_eq_of_lt (by omega)
  have hLnn : (0 : Int) ≤ (L : Int) := Int.natCast_nonneg L
  by_cases hi : i < 0
  · simp only [cgen_normalize_index, if_pos hi, cgen_normalize_index_check, hcast]
    rw [if_pos (by omega)]
    exact ⟨rfl, rfl⟩
  · simp only [cgen_normalize_index, if_neg hi, cgen_normalize_index_check, hcast]
    rw [if_pos (by omega)]
    exact ⟨rfl, rfl⟩

/-- C3: for a sequence length `L` and any `i` in `[-L, L-1]`,
`cgen_normalize_index` returns `i` (if nonnegative) or `i + L`, leaving
the error context untouched; for `i` outside that range it returns the
sentinel `-1` and sets the context code to `CGEN_ERROR_INDEX`.  The range
hypotheses keep the C `int` arithmetic exact. -/
theorem C3_normalize_index (i : Int) (L : Nat) (ctx : cgen_error_context_t)
    (hiLo : -(2 ^ 31) ≤ i) (hiHi : i < 2 ^ 31) (hL : L ≤ 2 ^ 31 - 1) :
    ((-(L : Int) ≤ i ∧ i ≤ (L : Int) - 1) →
      cgen_normalize_index i L ctx = (if 0 ≤ i then i else i + L, ctx)) ∧
    ((i < -(L : Int) ∨ (L : Int) ≤ i) →
      (cgen_normalize_index i L ctx).1 = -1 ∧
      (cgen_normalize_index i L ctx).2.code = cgen_error.CGEN_ERROR_INDEX) := by
  exact ⟨fun h => normalize_index_in_range i L ctx hiLo hiHi hL h.1 h.2,
         fun h => normalize_index_out_range i L ctx hiLo hiHi hL h⟩

/-- Witness for C3: length 5, in-range index `-2` resolves to `3` with the
context untouched, and out-of-range index `5` yields the sentinel and an
Index error. -/
theorem C3_normalize_index_witness :
    cgen_normalize_index (-2) 5 cgen_last_error_init = (3, cgen_last_error_init) ∧
    (cgen_normalize_index 5 5 cgen_last_error_init).1 = -1 ∧
    (cgen_normalize_index 5 5 cgen_last_error_init).2.code =
      cgen_error.CGEN_ERROR_INDEX := by
  refine ⟨?_, ?_⟩
  · have h := (C3_normalize_index (-2) 5 cgen_last_error_init (by decide)
      (by decide) (by decide)).1 ⟨by decide, by decide⟩
    rw [h]; decide
  · exact (C3_normalize_index 5 5 cgen_last_error_init (by decide)
      (by decide) (by decide)).2 (Or.inr (by decide))

/-! ## Generic container bridge (`cgen_stc_bridge.c`) -/

/-- A vector capability table: the `size_func`/`at_func` pair handed to
`cgen_vec_at_safe_impl`.  A live, non-NULL container with non-NULL
function pointers is represented by the structure itself; `at_fn`
returning `none` models `at_func` returning NULL. -/
structure VecCap (α : Type) where
  size : Nat
  at_fn : Nat → Option α

/-- The capability table of a concrete sequence held as a Lean list. -/
def listVecCap (xs : List α) : VecCap α :=
  { size := xs.length, at_fn := fun i => xs.get? i }

/-- `cgen_vec_at_safe_impl`: `size_func`, then `cgen_normalize_index`,
then `at_func` on success.  The third component records which positions
`at_func` was invoked on (so "the `at` capability was not called" is the
trace being empty). -/
def cgen_vec_at_safe_impl (cap : VecCap α) (index : Int)
    (ctx : cgen_error_context_t) :
    Option α × cgen_error_context_t × List Nat :=
  let r := cgen_normalize_index index cap.size ctx
  if r.1 < 0 then
    (none, r.2, [])
  else
    (cap.at_fn (usize r.1), r.2, [usize r.1])

/-- A map capability table: the `contains_func`/`get_func` pair handed to
`cgen_map_get_safe_impl`. -/
structure MapCap (κ ν : Type) where
  contains : κ → Bool
  get : κ → Option ν

/-- The capability table of a concrete association list. -/
def mapCapOfList [DecidableEq κ] (kvs : List (κ × ν)) : MapCap κ ν :=
  { contains := fun k => kvs.any (fun kv => kv.1 = k),
    get := fun k => (kvs.find? (fun kv => kv.1 = k)).map (fun kv => kv.2) }

/-- `cgen_map_get_safe_impl`: `contains_func` first; if the key is absent,
set a Key error whose `CGEN_SET_ERROR_FMT` text is
`"Key not found in %s"` with the type name (or `"map"`), and return NULL;
otherwise delegate to `get_func`. -/
def cgen_map_get_safe_impl (cap : MapCap κ ν) (key : κ)
    (type_name : Option String) (ctx : cgen_error_context_t) :
    Option ν × cgen_error_context_t :=
  if cap.contains key = false then
    (none,
     cgen_set_error_fmt ctx cgen_error.CGEN_ERROR_KEY none 0 none
       ("Key not found in ".data ++ (type_name.getD "map").data))
  else
    (cap.get key, ctx)

/-- C4: for any container of size 5 with valid capabilities, `safe_at`
with index `-1` calls the `at` capability exactly at position 4 (the last
element) and returns its element, leaving the context untouched; with
index `5` it returns the NULL sentinel, sets an Index error, and never
calls the `at` capability. -/
theorem C4_vec_at_safe (α : Type) (cap : VecCap α) (ctx : cgen_error_context_t)
    (h5 : cap.size = 5) :
    cgen_vec_at_safe_impl cap (-1) ctx = (cap.at_fn 4, ctx, [4]) ∧
    (cgen_vec_at_safe_impl cap 5 ctx).1 = none ∧
    (cgen_vec_at_safe_impl cap 5 ctx).2.1.code = cgen_error.CGEN_ERROR_INDEX ∧
    (cgen_vec_at_safe_impl cap 5 ctx).2.2 = [] := by
  have hin : cgen_normalize_index (-1) cap.size ctx = (4, ctx) := by
    rw [h5]
    have h := normalize_index_in_range (-1) 5 ctx (by decide) (by decide)
      (by decide) (by decide) (by decide)
    rw [h]
    norm_num
  have hout := normalize_index_out_range 5 cap.size ctx (by decide) (by decide)
    (by rw [h5]; decide) (by rw [h5]; exact Or.inr (by decide))
  refine ⟨?_, ?_, ?_, ?_⟩
  · unfold cgen_vec_at_safe_impl
    rw [hin]
    have hu : usize 4 = 4 := by decide
    rw [if_neg (by norm_num), hu]
  · unfold cgen_vec_at_safe_impl
    rw [if_pos (by rw [hout.1]; decide)]
  · unfold cgen_vec_at_safe_impl
    rw [if_pos (by rw [hout.1]; decide)]
    exact hout.2
  · unfold cgen_vec_at_safe_impl
    rw [if_pos (by rw [hout.1]; decide)]

/-- Witness for C4: the concrete 5-element sequence [10,20,30,40,50]. -/
theorem C4_vec_at_safe_witness :
    cgen_vec_at_safe_impl (listVecCap [10, 20, 30, 40, 50]) (-1)
        cgen_last_error_init =
      (some 50, cgen_last_error_init, [4]) ∧
    (cgen_vec_at_safe_impl (listVecCap [10, 20, 30, 40, 50]) 5
        cgen_last_error_init).1 = none ∧
    (cgen_vec_at_safe_impl (listVecCap [10, 20, 30, 40, 50]) 5
        cgen_last_error_init).2.1.code = cgen_error.CGEN_ERROR_INDEX := by
  have h := C4_vec_at_safe Nat (listVecCap [10, 20, 30, 40, 50])
    cgen_last_error_init (by decide)
  exact ⟨by rw [h.1]; decide, h.2.1, h.2.2.1⟩

/-- C2 counterexample: an empty string-keyed map queried for `"x"` (with
no type name, so the C text is `"Key not found in map"`).  The call does
return the NULL sentinel with a Key error, but the key's text `"x"` does
not occur in the stored message, refuting the claim as stated. -/
theorem C2_counterexample :
    (cgen_map_get_safe_impl (mapCapOfList ([] : List (String × Int))) "x"
        none cgen_last_error_init).1 = none ∧
    (cgen_map_get_safe_impl (mapCapOfList ([] : List (String × Int))) "x"
        none cgen_last_error_init).2.code = cgen_error.CGEN_ERROR_KEY ∧
    ¬ ("x".data <:+:
       (cgen_map_get_safe_impl (mapCapOfList ([] : List (String × Int))) "x"
         none cgen_last_error_init).2.message) := by
  refine ⟨by decide, by decide, by decide⟩

/-- C2 (amended): for every map capability lacking key `k`, `safe_get`
returns the NULL sentinel and sets a Key error whose message is
`"Key not found in "` followed by the container's type name (default
`"map"`); the type name (not the key) appears in the message text. -/
theorem C2_map_get_missing_key (κ ν : Type) (cap : MapCap κ ν) (k : κ)
    (tn : Option String) (ctx : cgen_error_context_t)
    (habs : cap.contains k = false)
    (hlen : (tn.getD "map").data.length ≤ 494) :
    (cgen_map_get_safe_impl cap k tn ctx).1 = none ∧
    (cgen_map_get_safe_impl cap k tn ctx).2.code = cgen_error.CGEN_ERROR_KEY ∧
    (cgen_map_get_safe_impl cap k tn ctx).2.message =
      "Key not found in ".data ++ (tn.getD "map").data ∧
    (tn.getD "map").data <:+:
      (cgen_map_get_safe_impl cap k tn ctx).2.message := by
  have hpre : ("Key not found in ".data).length = 17 := by decide
  have hmsg :
      ("Key not found in ".data ++ (tn.getD "map").data).take 511 =
        "Key not found in ".data ++ (tn.getD "map").data := by
    apply List.take_of_length_le
    rw [List.length_append, hpre]
    omega
  unfold cgen_map_get_safe_impl
  rw [if_pos habs]
  refine ⟨rfl, rfl, ?_, ?_⟩
  · show ("Key not found in ".data ++ (tn.getD "map").data).take 511 = _
    exact hmsg
  · show (tn.getD "map").data <:+:
      ("Key not found in ".data ++ (tn.getD "map").data).take 511
    rw [hmsg]
    exact (List.suffix_append _ _).isInfix

/-- Witness for C2 (amended): a one-entry map lacking key `"x"`, with type
name `"dict"`. -/
theorem C2_map_get_missing_key_witness :
    (cgen_map_get_safe_impl (mapCapOfList [("a", 1)]) "x" (some "dict")
        cgen_last_error_init).1 = none ∧
    (cgen_map_get_safe_impl (mapCapOfList [("a", 1)]) "x" (some "dict")
        cgen_last_error_init).2.code = cgen_error.CGEN_ERROR_KEY ∧
    "dict".data <:+:
      (cgen_map_get_safe_impl (mapCapOfList [("a", 1)]) "x" (some "dict")
        cgen_last_error_init).2.message := by
  have h := C2_map_get_missing_key String Nat (mapCapOfList [("a", 1)]) "x"
    (some "dict") cgen_last_error_init (by decide) (by decide)
  exact ⟨h.1, h.2.1, h.2.2.2⟩

/-! ## Python slice normalization (`cgen_python_ops.c`) -/

/-- `cgen_python_slice_t`: raw slice spec; the `has_*` ints are presence
flags. -/
structure cgen_python_slice_t : Type where
  start : Int
  stop : Int
  step : Int
  has_start : Bool
  has_stop : Bool
  has_step : Bool
  deriving DecidableEq

/-- `cgen_normalized_slice_t`: all four fields are `size_t`. -/
structure cgen_normalized_slice_t : Type where
  start : Nat
  stop : Nat
  step : Nat
  length : Nat
  deriving DecidableEq

/-- `cgen_slice_new`: `{0, 0, 1, 0, 0, 0}`. -/
def cgen_slice_new : cgen_python_slice_t :=
  { start := 0, stop := 0, step := 1,
    has_start := false, has_stop := false, has_step := false }

/-- `cgen_slice_start_stop`: `{start, stop, 1, 1, 1, 0}`. -/
def cgen_slice_start_stop (start stop : Int) : cgen_python_slice_t :=
  { start := start, stop := stop, step := 1,
    has_start := true, has_stop := true, has_step := false }

/-- `cgen_slice_full`: `{start, stop, step, 1, 1, 1}`. -/
def cgen_slice_full (start stop step : Int) : cgen_python_slice_t :=
  { start := start, stop := stop, step := step,
    has_start := true, has_stop := true, has_step := true }

/-- `cgen_normalize_python_slice`: the NULL-argument guard is modelled by
the arguments being present; the remaining code is transcribed line by
line.  `usize` makes the `(size_t)start` / `(size_t)stop` stores explicit
(the clamp value `-1` used for a negative step becomes `2^64 - 1`), and
the additive length expression is computed in `size_t`, hence the
`% 2^64`.  `abs(step)` is `Int.natAbs` (exact for every `int` step except
the undefined `abs(INT_MIN)`). -/
def cgen_normalize_python_slice (slice : cgen_python_slice_t) (seq_len : Nat)
    (ctx : cgen_error_context_t) :
    Option cgen_normalized_slice_t × cgen_error_context_t :=
  if slice.has_step = true ∧ slice.step = 0 then
    (none,
     cgen_set_error ctx cgen_error.CGEN_ERROR_VALUE
       (some ("Slice step cannot be zero".data)) none 0 none)
  else
    let step : Int := if slice.has_step then slice.step else 1
    let rstep : Nat := step.natAbs
    let len : Int := intOfSize seq_len
    let start0 : Int :=
      if slice.has_start then slice.start else if 0 < step then 0 else len - 1
    let start1 : Int := if start0 < 0 then start0 + len else start0
    let start2 : Int :=
      if start1 < 0 then (if 0 < step then 0 else -1) else start1
    let start3 : Int :=
      if len ≤ start2 then (if 0 < step then len else len - 1) else start2
    let rstart : Nat := usize start3
    let stop0 : Int :=
      if slice.has_stop then slice.stop else if 0 < step then len else -1
    let stop1 : Int := if stop0 < 0 then stop0 + len else stop0
    let stop2 : Int :=
      if stop1 < 0 then (if 0 < step then 0 else -1) else stop1
    let stop3 : Int :=
      if len ≤ stop2 then (if 0 < step then len else len - 1) else stop2
    let rstop : Nat := usize stop3
    let rlength : Nat :=
      if 0 < step then
        if rstart < rstop then ((rstop - rstart + rstep - 1) % 2 ^ 64) / rstep
        else 0
      else
        if rstop < rstart then ((rstart - rstop + rstep - 1) % 2 ^ 64) / rstep
        else 0
    (some { start := rstart, stop := rstop, step := rstep, length := rlength },
     ctx)

/-- The visit count of the explicit stepped loop the claim compares the
`length` field against, for a negative step: starting at `start`, visit
while the index is still above `stop`, decreasing by the step magnitude
`ustep` each time.  This is the spec-side comparator (the claim's
"explicit loop stepping from the normalized start toward the normalized
stop by step"), stated over the signed values the normalization clamps to
(`[-1, length-1]` for a negative step). -/
def specSliceVisitsNeg (start stop : Int) (ustep : Nat) : Nat :=
  if h : 0 < ustep ∧ stop < start then
    specSliceVisitsNeg (start - ustep) stop ustep + 1
  else 0
termination_by (start - stop).toNat
decreasing_by
  simp_wf
  omega

/-- C1 (code-bug evidence): for length 5 and slice
`(start := -100, stop := 0, step := -1)` the code clamps the start to the
signed value `-1` (below-range start with a negative step) but stores it
into the unsigned `size_t` field, producing `start = 2^64 - 1` and a
`length` field of `2^64 - 1`; the explicit stepped loop from the clamped
start `-1` toward stop `0` by step `-1` visits no index at all, so the
claimed equality of the `length` field with the loop's visit count fails
here (the normalized `start` also escapes the documented `[0, length]`
range). -/
theorem C1_slice_length_code_bug :
    (cgen_normalize_python_slice (cgen_slice_full (-100) 0 (-1)) 5
        cgen_last_error_init).1 =
      some { start := 2 ^ 64 - 1, stop := 0, step := 1, length := 2 ^ 64 - 1 } ∧
    specSliceVisitsNeg (-1) 0 1 = 0 := by
  constructor
  · decide
  · rw [specSliceVisitsNeg]
    norm_num

/-! ## Scope allocator (`cgen_memory_ops.c`) -/

/-- Observable release actions of `cgen_scope_free`: freeing one
registered pointer, and the final `free(scope)` of the scope record. -/
inductive ScopeEvent (π : Type) : Type
  | freePtr (p : π)
  | freeScope
  deriving DecidableEq

/-- `cgen_scope_register`: a NULL pointer is rejected with a Value error;
otherwise a fresh entry is pushed at the head of the scope's list
(`entry->next = scope->head; scope->head = entry`) — the entry `malloc`
is modelled as succeeding, and a valid (non-NULL) scope handle is
represented by the list itself.  Registering the same pointer twice
pushes two independent entries. -/
def cgen_scope_register (scope : List π) (ptr : Option π)
    (ctx : cgen_error_context_t) :
    cgen_error × List π × cgen_error_context_t :=
  match ptr with
  | none =>
      (cgen_error.CGEN_ERROR_VALUE, scope,
       cgen_set_error ctx cgen_error.CGEN_ERROR_VALUE
         (some ("Pointer is NULL".data)) none 0 none)
  | some p => (cgen_error.CGEN_OK, p :: scope, ctx)

/-- `cgen_scope_free`: walk the entry list from the head, freeing each
registered pointer in turn, then free the scope record itself.  The
result is the sequence of release actions performed, in order. -/
def cgen_scope_free (scope : List π) : List (ScopeEvent π) :=
  scope.map ScopeEvent.freePtr ++ [ScopeEvent.freeScope]

/-- A sequence of successful registrations of the pointers in `ps`
(left to right), starting from a fresh scope. -/
def cgen_scope_register_all (ps : List π) (ctx : cgen_error_context_t) :
    List π × cgen_error_context_t :=
  ps.foldl (fun acc p => (cgen_scope_register acc.1 (some p) acc.2).2)
    ([], ctx)

/-- Registering `ps` in order yields the reversed list as the scope's
entry list (head = most recent), with the error context untouched. -/
theorem cgen_scope_register_all_eq (ps : List π) (ctx : cgen_error_context_t) :
    cgen_scope_register_all ps ctx = (ps.reverse, ctx) := by
  unfold cgen_scope_register_all
  suffices h : ∀ acc : List π,
      ps.foldl (fun acc p => (cgen_scope_register acc.1 (some p) acc.2).2)
        (acc, ctx) = (ps.reverse ++ acc, ctx) by
    simpa using h []
  induction ps with
  | nil => intro acc; simp
  | cons x xs ih =>
      intro acc
      rw [List.foldl_cons]
      show List.foldl _ (x :: acc, ctx) xs = _
      rw [ih (x :: acc)]
      simp

/-- C5: after any sequence of successful registrations (duplicates
included, each creating its own entry), `cgen_scope_free` frees exactly
the registered pointers, in reverse order of registration, and then
releases the scope record; every pointer is freed once per registration,
and a scope with no registrations only releases the scope record. -/
theorem C5_scope_free_reverse_exactly_once (π : Type) [DecidableEq π]
    (ps : List π) (ctx : cgen_error_context_t) :
    cgen_scope_free (cgen_scope_register_all ps ctx).1 =
      (ps.reverse.map ScopeEvent.freePtr) ++ [ScopeEvent.freeScope] ∧
    (∀ p : π,
      (cgen_scope_free (cgen_scope_register_all ps ctx).1).count
          (ScopeEvent.freePtr p) = ps.count p) ∧
    cgen_scope_free ([] : List π) = [ScopeEvent.freeScope] := by
  rw [cgen_scope_register_all_eq]
  refine ⟨rfl, ?_, rfl⟩
  intro p
  unfold cgen_scope_free
  rw [List.count_append]
  have hinj : Function.Injective (ScopeEvent.freePtr (π := π)) := by
    intro a b h
    cases h
    rfl
  rw [List.count_map_of_injective _ _ hinj, List.count_reverse]
  simp [List.count_singleton]

/-! ## Memory pool (`cgen_memory_ops.c`)

Pool arithmetic is modelled in unbounded naturals: every reachable pool
state keeps `used ≤ capacity < 2^64`, so no `size_t` expression in
`cgen_memory_pool_alloc` wraps.  The buffer pointer is abstracted away;
an allocation is observed as its byte offset into the backing buffer
(`ptr - pool->data = pool->used` at the time of the call). -/

/-- `struct cgen_memory_pool`: `size` counts allocations, `used` is the
bump offset. -/
structure cgen_memory_pool : Type where
  size : Nat
  capacity : Nat
  used : Nat
  deriving DecidableEq

/-- `size = (size + sizeof(void*) - 1) & ~(sizeof(void*) - 1)`: with
8-byte pointers the mask form clears the low three bits of `size + 7`,
i.e. rounds up to a multiple of 8. -/
def alignSize (s : Nat) : Nat := ((s + 7) / 8) * 8

/-- The doubling loop `new_capacity = capacity * 2; while (new_capacity <
need) new_capacity *= 2;`, entered with `cap = capacity * 2`.  For
`cap = 0` the C loop would never terminate; reachable pools always have a
positive capacity (`cgen_memory_pool_new` turns 0 into 4096). -/
def growCapacity (cap need : Nat) : Nat :=
  if h : 0 < cap ∧ cap < need then growCapacity (cap * 2) need else cap
termination_by need - cap
decreasing_by
  simp_wf
  omega

/-- `cgen_memory_pool_new` (the record only; `malloc` modelled as
succeeding): zero initial size defaults to 4096. -/
def cgen_memory_pool_new (initial_size : Nat) : cgen_memory_pool :=
  { size := 0,
    capacity := if initial_size = 0 then 4096 else initial_size,
    used := 0 }

/-- `cgen_memory_pool_alloc`: align the request, grow (doubling) if it
does not fit, then bump.  The returned offset is `pool->used` at the time
of the call; `realloc` is modelled as succeeding. -/
def cgen_memory_pool_alloc (pool : cgen_memory_pool) (sz : Nat) :
    Option Nat × cgen_memory_pool :=
  let size := alignSize sz
  let pool1 :=
    if pool.capacity < pool.used + size then
      { pool with capacity := growCapacity (pool.capacity * 2) (pool.used + size) }
    else pool
  (some pool1.used,
   { pool1 with used := pool1.used + size, size := pool1.size + 1 })

/-- `cgen_memory_pool_reset`: logically empty, capacity kept. -/
def cgen_memory_pool_reset (pool : cgen_memory_pool) : cgen_memory_pool :=
  { pool with used := 0, size := 0 }

/-- A sequence of allocations, left to right. -/
def cgen_memory_pool_alloc_all (pool : cgen_memory_pool)
    (sizes : List Nat) : cgen_memory_pool :=
  sizes.foldl (fun p s => (cgen_memory_pool_alloc p s).2) pool

/-- The doubling loop never returns less than its starting value. -/
theorem growCapacity_ge (n : Nat) :
    ∀ cap need : Nat, need - cap = n → cap ≤ growCapacity cap need := by
  induction n using Nat.strong_induction_on with
  | _ n ih =>
    intro cap need hn
    rw [growCapacity]
    split_ifs with h
    · have h2 : need - cap * 2 < n := by omega
      exact le_trans (by omega) (ih _ h2 (cap * 2) need rfl)
    · exact le_rfl

/-- One allocation never shrinks the capacity. -/
theorem pool_alloc_capacity_le (p : cgen_memory_pool) (s : Nat) :
    p.capacity ≤ (cgen_memory_pool_alloc p s).2.capacity := by
  simp only [cgen_memory_pool_alloc]
  split_ifs with h
  · exact le_trans (by omega) (growCapacity_ge _ (p.capacity * 2) _ rfl)
  · exact le_rfl

/-- A sequence of allocations never shrinks the capacity. -/
theorem pool_alloc_all_capacity_le (sizes : List Nat) :
    ∀ p : cgen_memory_pool,
      p.capacity ≤ (cgen_memory_pool_alloc_all p sizes).capacity := by
  induction sizes with
  | nil => intro p; exact le_rfl
  | cons s rest ih =>
      intro p
      exact le_trans (pool_alloc_capacity_le p s)
        (ih (cgen_memory_pool_alloc p s).2)

/-- An allocation that does not fit strictly grows a positive capacity. -/
theorem pool_alloc_capacity_lt (p : cgen_memory_pool) (s : Nat)
    (hpos : 0 < p.capacity) (h : p.capacity < p.used + alignSize s) :
    p.capacity < (cgen_memory_pool_alloc p s).2.capacity := by
  simp only [cgen_memory_pool_alloc]
  rw [if_pos h]
  exact lt_of_lt_of_le (by omega) (growCapacity_ge _ (p.capacity * 2) _ rfl)

/-- If a whole allocation sequence never grows the pool (final capacity
equals the starting one), then every allocation fitted, the bump offset
advanced by exactly the aligned sizes, and it never passed the capacity. -/
theorem pool_no_growth_sum (sizes : List Nat) :
    ∀ p : cgen_memory_pool, 0 < p.capacity → p.used ≤ p.capacity →
      (cgen_memory_pool_alloc_all p sizes).capacity = p.capacity →
      (cgen_memory_pool_alloc_all p sizes).used =
        p.used + (sizes.map alignSize).sum ∧
      (cgen_memory_pool_alloc_all p sizes).used ≤ p.capacity := by
  induction sizes with
  | nil =>
      intro p hpos hle hcap
      exact ⟨by simp [cgen_memory_pool_alloc_all], by
        simpa [cgen_memory_pool_alloc_all] using hle⟩
  | cons s rest ih =>
      intro p hpos hle hcap
      have hstep : cgen_memory_pool_alloc_all p (s :: rest) =
          cgen_memory_pool_alloc_all (cgen_memory_pool_alloc p s).2 rest := rfl
      by_cases hg : p.capacity < p.used + alignSize s
      · exfalso
        have h1 := pool_alloc_capacity_lt p s hpos hg
        have h2 := pool_alloc_all_capacity_le rest (cgen_memory_pool_alloc p s).2
        rw [hstep] at hcap
        omega
      · have hp1 : (cgen_memory_pool_alloc p s).2 =
            { size := p.size + 1, capacity := p.capacity,
              used := p.used + alignSize s } := by
          simp only [cgen_memory_pool_alloc]
          rw [if_neg hg]
        rw [hstep, hp1] at hcap ⊢
        have := ih { size := p.size + 1, capacity := p.capacity,
                     used := p.used + alignSize s } hpos
          (show p.used + alignSize s ≤ p.capacity by omega) hcap
        refine ⟨?_, this.2⟩
        rw [this.1]
        show (p.used + alignSize s) + (rest.map alignSize).sum =
          p.used + ((s :: rest).map alignSize).sum
        simp only [List.map_cons, List.sum_cons]
        omega

/-- C6 counterexample: the claim's alloc/reset/alloc round trip does not
return the same offset on every pool.  Reachable concrete state: a fresh
64-byte pool after one 5-byte allocation (`used = 8`).  The next
allocation of 8 bytes is at offset 8; after `reset`, the same request is
served at offset 0. -/
theorem C6_counterexample :
    (cgen_memory_pool_alloc
        (cgen_memory_pool_alloc (cgen_memory_pool_new 64) 5).2 8).1 =
      some 8 ∧
    (cgen_memory_pool_alloc
        (cgen_memory_pool_reset
          (cgen_memory_pool_alloc
            (cgen_memory_pool_alloc (cgen_memory_pool_new 64) 5).2 8).2) 8).1 =
      some 0 ∧
    some (8 : Nat) ≠ some (0 : Nat) := by
  refine ⟨by decide, by decide, by decide⟩

/-- C6 (amended): on a pool whose bump offset is zero (fresh or just
reset), an allocation that fits without growth, a reset, and an equal
allocation return the same offset; and starting from a fresh pool of
positive capacity `C`, as long as no allocation has grown the pool, the
total aligned bytes handed out equal the bump offset and never exceed
`C`. -/
theorem C6_pool_reset_offset_and_capacity :
    (∀ (pool : cgen_memory_pool) (s : Nat),
      pool.used = 0 → alignSize s ≤ pool.capacity →
      (cgen_memory_pool_alloc pool s).1 =
        (cgen_memory_pool_alloc
          (cgen_memory_pool_reset (cgen_memory_pool_alloc pool s).2) s).1) ∧
    (∀ (C : Nat) (sizes : List Nat), 0 < C →
      (cgen_memory_pool_alloc_all
        { size := 0, capacity := C, used := 0 } sizes).capacity = C →
      (cgen_memory_pool_alloc_all
        { size := 0, capacity := C, used := 0 } sizes).used =
        (sizes.map alignSize).sum ∧
      (cgen_memory_pool_alloc_all
        { size := 0, capacity := C, used := 0 } sizes).used ≤ C) := by
  constructor
  · intro pool s h0 hfit
    have hg : ¬ (pool.capacity < pool.used + alignSize s) := by omega
    have h1 : (cgen_memory_pool_alloc pool s).1 = some pool.used := by
      simp only [cgen_memory_pool_alloc]
      rw [if_neg hg]
    have hp1 : (cgen_memory_pool_alloc pool s).2 =
        { size := pool.size + 1, capacity := pool.capacity,
          used := pool.used + alignSize s } := by
      simp only [cgen_memory_pool_alloc]
      rw [if_neg hg]
    have hg2 : ¬ (pool.capacity < 0 + alignSize s) := by omega
    have h2 : (cgen_memory_pool_alloc
        (cgen_memory_pool_reset (cgen_memory_pool_alloc pool s).2) s).1 =
        some 0 := by
      rw [hp1]
      simp only [cgen_memory_pool_reset, cgen_memory_pool_alloc]
      rw [if_neg hg2]
    rw [h1, h2, h0]
  · intro C sizes hC hcap
    have h := pool_no_growth_sum sizes
      { size := 0, capacity := C, used := 0 } hC (Nat.zero_le C) hcap
    refine ⟨?_, h.2⟩
    rw [h.1]
    show 0 + (sizes.map alignSize).sum = (sizes.map alignSize).sum
    omega

/-- Witness for C6 (amended): fresh 64-byte pool, request 8; and the
sequence [8, 16] on a fresh 64-byte pool. -/
theorem C6_pool_witness :
    (cgen_memory_pool_alloc { size := 0, capacity := 64, used := 0 } 8).1 =
      (cgen_memory_pool_alloc
        (cgen_memory_pool_reset
          (cgen_memory_pool_alloc
            { size := 0, capacity := 64, used := 0 } 8).2) 8).1 ∧
    (cgen_memory_pool_alloc_all
        { size := 0, capacity := 64, used := 0 } [8, 16]).used =
      ([8, 16].map alignSize).sum ∧
    (cgen_memory_pool_alloc_all
        { size := 0, capacity := 64, used := 0 } [8, 16]).used ≤ 64 := by
  refine ⟨C6_pool_reset_offset_and_capacity.1
    { size := 0, capacity := 64, used := 0 } 8 rfl (by decide), ?_, ?_⟩
  · exact (C6_pool_reset_offset_and_capacity.2 64 [8, 16] (by decide)
      (by decide)).1
  · exact (C6_pool_reset_offset_and_capacity.2 64 [8, 16] (by decide)
      (by decide)).2

/-! ## Reference-counted objects (`cgen_memory_ops.c`) -/

/-- Observable teardown actions of `cgen_refcounted_release`: running the
destructor on the payload, and `free(obj)` of the envelope. -/
inductive RefEvent : Type
  | dtor_run
  | freed
  deriving DecidableEq

/-- `cgen_refcounted_t`: refcount header plus payload.  The payload bytes
are a Lean value; `destructor` records whether a non-NULL destructor
function pointer was supplied. -/
structure cgen_refcounted (α : Type) : Type where
  refcount : Int
  destructor : Bool
  data : α
  deriving DecidableEq

/-- `cgen_refcounted_new`: `malloc` modelled as succeeding; refcount
starts at 1.  An `Option` value stands for the C object pointer
(`none` = NULL). -/
def cgen_refcounted_new (destructor : Bool) (payload : α) :
    Option (cgen_refcounted α) :=
  some { refcount := 1, destructor := destructor, data := payload }

/-- `cgen_refcounted_retain`: NULL passes through; otherwise increment
and return the same reference. -/
def cgen_refcounted_retain : Option (cgen_refcounted α) →
    Option (cgen_refcounted α)
  | none => none
  | some obj => some { obj with refcount := obj.refcount + 1 }

/-- `cgen_refcounted_release`: NULL is a no-op; otherwise decrement, and
at `refcount <= 0` run the destructor (if present) on the payload and
free the envelope.  The second component lists the teardown actions
performed by this call. -/
def cgen_refcounted_release : Option (cgen_refcounted α) →
    Option (cgen_refcounted α) × List RefEvent
  | none => (none, [])
  | some obj =>
      if obj.refcount - 1 ≤ 0 then
        (none,
         (if obj.destructor then [RefEvent.dtor_run] else []) ++ [RefEvent.freed])
      else
        (some { obj with refcount := obj.refcount - 1 }, [])

/-- `cgen_refcounted_count`: 0 for NULL. -/
def cgen_refcounted_count : Option (cgen_refcounted α) → Int
  | none => 0
  | some obj => obj.refcount

/-- `cgen_refcounted_data`: NULL for NULL, else the payload. -/
def cgen_refcounted_data : Option (cgen_refcounted α) → Option α
  | none => none
  | some obj => some obj.data

/-- C7: a freshly created object (count 1, with a destructor) is torn
down by a single `release`, which runs the destructor and frees the
envelope exactly once; after one `retain`, the first `release` performs
no teardown and leaves the object live with count 1, and only the second
`release` runs the destructor and frees — again exactly once over the
whole sequence. -/
theorem C7_refcounted_lifecycle (α : Type) (payload : α) :
    cgen_refcounted_release (cgen_refcounted_new true payload) =
      (none, [RefEvent.dtor_run, RefEvent.freed]) ∧
    (cgen_refcounted_release
        (cgen_refcounted_retain (cgen_refcounted_new true payload))).2 = [] ∧
    (cgen_refcounted_release
        (cgen_refcounted_retain (cgen_refcounted_new true payload))).1 =
      some { refcount := 1, destructor := true, data := payload } ∧
    cgen_refcounted_count
        (cgen_refcounted_release
          (cgen_refcounted_retain (cgen_refcounted_new true payload))).1 = 1 ∧
    cgen_refcounted_release
        (cgen_refcounted_release
          (cgen_refcounted_retain (cgen_refcounted_new true payload))).1 =
      (none, [RefEvent.dtor_run, RefEvent.freed]) := by
  refine ⟨?_, ?_, ?_, ?_, ?_⟩ <;>
    simp [cgen_refcounted_new, cgen_refcounted_retain, cgen_refcounted_release,
      cgen_refcounted_count]

/-- C10: every refcount entry point tolerates a NULL object:
`retain(NULL) = NULL`, `release(NULL)` performs no teardown,
`count(NULL) = 0`, `data(NULL) = NULL`. -/
theorem C10_refcounted_null_safety (α : Type) :
    cgen_refcounted_retain (none : Option (cgen_refcounted α)) = none ∧
    cgen_refcounted_release (none : Option (cgen_refcounted α)) = (none, []) ∧
    cgen_refcounted_count (none : Option (cgen_refcounted α)) = 0 ∧
    cgen_refcounted_data (none : Option (cgen_refcounted α)) = none :=
  ⟨rfl, rfl, rfl, rfl⟩
